import Mathlib

/-!
Shallow embedding of the `cf/ministark` repository core:
`fast-poly/src/fields/fp_u256.rs` (256-bit integer and secp256k1
Montgomery prime field), `mini-stark/src/constraint.rs` (multivariate
constraint-polynomial algebra) and `mini-stark/src/prover.rs`
(commit/challenge proving pipeline).

Machine integers (`u128`) are modelled as `Nat` with explicit `% 2^128`
wraparound; `u64` truncations (`as u64 as u128`) as `% 2^64`.  Fallible
Rust operations (`panic!`, `todo!()`, division by zero) are modelled with
`Except RsPanic`.
-/

/-- Panic outcomes of the Rust code: division by zero, an explicit
`todo()` left in the source, or (for fuel-indexed loop embeddings)
exhausted fuel, which never occurs in any theorem below. -/
inductive RsPanic where
  | divByZero
  | todo
  | fuel
deriving DecidableEq

/-- The u128 wraparound modulus. -/
def U128_MOD : Nat := 2 ^ 128

/-- Embeds `u128::overflowing_add`. -/
def u128_overflowing_add (a b : Nat) : Nat × Bool :=
  ((a + b) % U128_MOD, decide (U128_MOD ≤ a + b))

/-- Embeds `u128::carrying_add` (add with carry-in, returns carry-out). -/
def u128_carrying_add (a b : Nat) (c : Bool) : Nat × Bool :=
  let s := a + b + (if c then 1 else 0)
  (s % U128_MOD, decide (U128_MOD ≤ s))

/-- Embeds `u128::overflowing_sub` (wrapping difference, borrow flag). -/
def u128_overflowing_sub (a b : Nat) : Nat × Bool :=
  ((a + U128_MOD - b) % U128_MOD, decide (a < b))

/-- Embeds `u128::borrowing_sub` (subtract with borrow-in, borrow-out). -/
def u128_borrowing_sub (a b : Nat) (br : Bool) : Nat × Bool :=
  let rhs := b + (if br then 1 else 0)
  ((a + U128_MOD - rhs) % U128_MOD, decide (a < rhs))

/-- Embeds `struct U256 { high: u128, low: u128 }`
(`fp_u256.rs` lines 39-43).  The fields hold values in `[0, 2^128)`. -/
structure U256 where
  high : Nat
  low : Nat
deriving DecidableEq, Repr

/-- Integer value of a `U256`. -/
def U256.toNat (x : U256) : Nat := x.high * 2 ^ 128 + x.low

/-- Embeds `U256::ZERO`. -/
def U256.ZERO : U256 := ⟨0, 0⟩

/-- Embeds `U256::ONE`. -/
def U256.ONE : U256 := ⟨0, 1⟩

/-- Embeds `U256::MAX`. -/
def U256.MAX : U256 := ⟨2 ^ 128 - 1, 2 ^ 128 - 1⟩

/-- Embeds `U256::is_zero`: `self.high == 0 && self.low == 0`. -/
def U256.is_zero (x : U256) : Bool := x.high == 0 && x.low == 0

/-- Embeds `U256::is_one`.  The source body is
`self.high == 0 && self.low == 0` (it tests for zero, not one). -/
def U256.is_one (x : U256) : Bool := x.high == 0 && x.low == 0

/-- Embeds the inherent method `U256::eq` (source lines 61-64):
`self.high == rhs.high || self.low == rhs.low` — a disjunction. -/
def U256.eqOp (a b : U256) : Bool := a.high == b.high || a.low == b.low

/-- Embeds the inherent method `U256::gt`:
`self.high > rhs.high || (self.high == rhs.high) && self.low > rhs.low`. -/
def U256.gtOp (a b : U256) : Bool :=
  decide (b.high < a.high) || ((a.high == b.high) && decide (b.low < a.low))

/-- Embeds the inherent method `U256::lt`. -/
def U256.ltOp (a b : U256) : Bool :=
  decide (a.high < b.high) || ((a.high == b.high) && decide (a.low < b.low))

/-- Embeds `U256::add` (wrapping 256-bit addition, carry between limbs). -/
def U256.addOp (a b : U256) : U256 :=
  let lo := u128_overflowing_add a.low b.low
  let hi := (u128_carrying_add a.high b.high lo.snd).fst
  ⟨hi, lo.fst⟩

/-- Embeds `U256::overflowing_add` (sum and 256-bit overflow flag). -/
def U256.overflowing_add (a b : U256) : U256 × Bool :=
  let lo := u128_overflowing_add a.low b.low
  let hi := u128_carrying_add a.high b.high lo.snd
  (⟨hi.fst, lo.fst⟩, hi.snd)

/-- Embeds `U256::sub` (wrapping 256-bit subtraction, borrow between
limbs). -/
def U256.subOp (a b : U256) : U256 :=
  let lo := u128_overflowing_sub a.low b.low
  let hi := (u128_borrowing_sub a.high b.high lo.snd).fst
  ⟨hi, lo.fst⟩

/-- Embeds `U256::as_usize`: `self.low as usize` (64-bit target, so the
low limb is truncated to 64 bits). -/
def U256.as_usize (x : U256) : Nat := x.low % 2 ^ 64

/-- Embeds `U256::shr`. -/
def U256.shrOp (a rhs : U256) : U256 :=
  let shift := rhs.as_usize
  if shift == 0 then a
  else if 256 ≤ shift then U256.ZERO
  else if 128 ≤ shift then ⟨0, a.high >>> (shift - 128)⟩
  else ⟨a.high >>> shift, (a.low >>> shift) ||| (a.high <<< (128 - shift)) % U128_MOD⟩

/-- Truncation `as u64 as u128` used by the limb-splitting multiplier. -/
def u64mask (x : Nat) : Nat := x % 2 ^ 64

/-- Embeds `U256::mul` (source lines 145-212): each 128-bit limb is split
into two 64-bit halves, a 4x4 grid of partial products is accumulated
over four 64-bit output positions with explicit carries, and the result
is the low 256 bits of the product.  `products[i][j] = top[3-i] * bottom[j]`. -/
def U256.mulOp (a b : U256) : U256 :=
  let top0 := a.high >>> 64
  let top1 := u64mask a.high
  let top2 := a.low >>> 64
  let top3 := u64mask a.low
  let bottom0 := b.high >>> 64
  let bottom1 := u64mask b.high
  let bottom2 := b.low >>> 64
  let bottom3 := u64mask b.low
  let p00 := top3 * bottom0
  let p01 := top3 * bottom1
  let p02 := top3 * bottom2
  let p03 := top3 * bottom3
  let p11 := top2 * bottom1
  let p12 := top2 * bottom2
  let p13 := top2 * bottom3
  let p22 := top1 * bottom2
  let p23 := top1 * bottom3
  let p33 := top0 * bottom3
  -- first row
  let fourth64 := u64mask p03
  let third64 := u64mask p02 + (p03 >>> 64)
  let second64 := u64mask p01 + (p02 >>> 64)
  let first64 := u64mask p00 + (p01 >>> 64)
  -- second row
  let third64 := third64 + u64mask p13
  let second64 := second64 + u64mask p12 + (p13 >>> 64)
  let first64 := first64 + u64mask p11 + (p12 >>> 64)
  -- third row
  let second64 := second64 + u64mask p23
  let first64 := first64 + u64mask p22 + (p23 >>> 64)
  -- fourth row
  let first64 := first64 + u64mask p33
  -- move carry to next digit
  let third64 := third64 + (fourth64 >>> 64)
  let second64 := second64 + (third64 >>> 64)
  let first64 := first64 + (second64 >>> 64)
  -- remove carry from current digit
  let fourth64 := u64mask fourth64
  let third64 := u64mask third64
  let second64 := u64mask second64
  let first64 := u64mask first64
  ⟨(first64 <<< 64) ||| second64, (third64 <<< 64) ||| fourth64⟩

/-- Embeds `U256::div_rem` (source lines 214-243).  The `rhs.is_one()`
branch is unreachable in practice because `is_one` tests for zero; the
`self < rhs` branch returns the divisor (not the dividend) as remainder;
the branch for divisors with a nonzero high limb is `todo!()`. -/
def U256.div_rem (a b : U256) : Except RsPanic (U256 × U256) :=
  if b.is_zero then .error .divByZero
  else if b.is_one then .ok (a, U256.ZERO)
  else if a.is_zero || a.ltOp b then .ok (U256.ZERO, b)
  else if a.eqOp b then .ok (U256.ONE, U256.ZERO)
  else if a.high == 0 && b.high == 0 then
    .ok (⟨0, a.low / b.low⟩, ⟨0, a.low % b.low⟩)
  else .error .todo

/-- Quotient of `U256::div_rem`, as used by `impl Div for U256`. -/
def u256_div (a b : U256) : Except RsPanic U256 :=
  (U256.div_rem a b).map Prod.fst

/-- Embeds `impl BitAnd for U256` (source lines 295-301), whose body is
`todo!()` — every use of the `&` operator on `U256` panics.  (The unused
inherent method `U256::bit_and` is implemented limb-wise, but the trait
impl the code actually calls is not.) -/
def u256_bitand : U256 → U256 → Except RsPanic U256 := fun _ _ => .error .todo

/-- Embeds `impl Ord for U256` (compare high limbs, then low limbs). -/
def U256.cmpOrd (a b : U256) : Ordering :=
  match compare a.high b.high with
  | .eq => compare a.low b.low
  | o => o

/-- Derived `PartialOrd::gt` from the `Ord` impl. -/
def U256.ordGt (a b : U256) : Bool := a.cmpOrd b == .gt

/-- Derived `PartialOrd::ge` from the `Ord` impl. -/
def U256.ordGe (a b : U256) : Bool := !(a.cmpOrd b == .lt)

/-- Embeds `From<u64> for U256`. -/
def U256.fromU64 (v : Nat) : U256 := ⟨0, v % 2 ^ 64⟩

namespace Fp

/-- Embeds the field modulus `N` (the secp256k1 prime). -/
def N : U256 :=
  ⟨0xFFFFFFFFFFFFFFFFFFFFFFFFFFFFFFFF, 0xFFFFFFFFFFFFFFFFFFFFFFFEFFFFFC2F⟩

/-- Embeds `R_SQUARED = R^2 mod N` where `R = 2^256`. -/
def R_SQUARED : U256 := ⟨0, 0x1000007A2000E90A1⟩

/-- Embeds `N_PRIME` with `N * N_PRIME = -1 mod R`. -/
def N_PRIME : U256 :=
  ⟨0xC9BD1905155383999C46C2C295F2B761, 0xBCB223FEDC24A059D838091DD2253531⟩

/-- Embeds the Montgomery multiplication `fn mul(lhs, rhs)` of
`fp_u256.rs` lines 966-1109 (REDC): the 512-bit product `T` is assembled
from four half-limb partial products into `t_low`/`t_high`; `m = t_low *
N_PRIME` (overflowing, mod `R`); `(T + m*N) / R` is taken as the
carry-adjusted high half; finally one conditional subtraction of `N`
(guarded by the inherent `gt`/`eq` methods) and one conditional addition
of `R - N` (guarded by the 256-bit overflow flag) are applied.  The
`println!` debug statements of the source are I/O only and have no
bearing on the returned value. -/
def mul (lhs rhs : U256) : U256 :=
  let lhs_low : U256 := ⟨0, lhs.low⟩
  let lhs_high : U256 := ⟨0, lhs.high⟩
  let rhs_low : U256 := ⟨0, rhs.low⟩
  let rhs_high : U256 := ⟨0, rhs.high⟩
  let partial_t_high := lhs_high.mulOp rhs_high
  let partial_t_mid_a := lhs_high.mulOp rhs_low
  let partial_t_mid_a_low : U256 := ⟨0, partial_t_mid_a.low⟩
  let partial_t_mid_a_high : U256 := ⟨0, partial_t_mid_a.high⟩
  let partial_t_mid_b := rhs_high.mulOp lhs_low
  let partial_t_mid_b_low : U256 := ⟨0, partial_t_mid_b.low⟩
  let partial_t_mid_b_high : U256 := ⟨0, partial_t_mid_b.high⟩
  let partial_t_low := lhs_low.mulOp rhs_low
  let tmp := (partial_t_mid_a_low.addOp partial_t_mid_b_low).addOp ⟨0, partial_t_low.high⟩
  let carry : U256 := ⟨0, tmp.high⟩
  let t_low : U256 := ⟨tmp.low, partial_t_low.low⟩
  let t_high := ((partial_t_high.addOp partial_t_mid_a_high).addOp partial_t_mid_b_high).addOp carry
  -- Compute `m = T * N' mod R`
  let m := t_low.mulOp N_PRIME
  -- Compute `t = (T + m * N) / R`
  let n_low : U256 := ⟨0, N.low⟩
  let n_high : U256 := ⟨0, N.high⟩
  let m_low : U256 := ⟨0, m.low⟩
  let m_high : U256 := ⟨0, m.high⟩
  let partial_mn_high := m_high.mulOp n_high
  let partial_mn_mid_a := m_high.mulOp n_low
  let partial_mn_mid_a_low : U256 := ⟨0, partial_mn_mid_a.low⟩
  let partial_mn_mid_a_high : U256 := ⟨0, partial_mn_mid_a.high⟩
  let partial_mn_mid_b := n_high.mulOp m_low
  let partial_mn_mid_b_low : U256 := ⟨0, partial_mn_mid_b.low⟩
  let partial_mn_mid_b_high : U256 := ⟨0, partial_mn_mid_b.high⟩
  let partial_mn_low := m_low.mulOp n_low
  let tmp2 := (partial_mn_mid_a_low.addOp partial_mn_mid_b_low).addOp ⟨0, partial_mn_low.high⟩
  let carry2 : U256 := ⟨0, tmp2.high⟩
  let mn_low : U256 := ⟨tmp2.low, partial_mn_low.low⟩
  let mn_high := ((partial_mn_high.addOp partial_mn_mid_a_high).addOp partial_mn_mid_b_high).addOp carry2
  let overflow := (U256.overflowing_add mn_low t_low).snd
  let tr := U256.overflowing_add (t_high.addOp ⟨0, if overflow then 1 else 0⟩) mn_high
  let t := tr.fst
  let overflows_r : U256 := ⟨0, if tr.snd then 1 else 0⟩
  let overflows_modulus : U256 := ⟨0, if t.gtOp N || t.eqOp N then 1 else 0⟩
  (t.addOp (overflows_r.mulOp (U256.ZERO.subOp N))).subOp (overflows_modulus.mulOp N)

/-- Embeds the modular addition `fn add(lhs, rhs)` of `fp_u256.rs`
lines 1112-1126: raw 256-bit addition, then subtract `N` when the
inherent `gt`/`eq` methods report the sum exceeds or equals `N`, and add
`R - N` when the 256-bit container overflowed. -/
def add (lhs rhs : U256) : U256 :=
  let ar := U256.overflowing_add lhs rhs
  let addition := ar.fst
  let overflows_r : U256 := ⟨0, if ar.snd then 1 else 0⟩
  let exceeds_modulus : U256 := ⟨0, if addition.gtOp N || addition.eqOp N then 1 else 0⟩
  (addition.subOp (exceeds_modulus.mulOp N)).addOp (overflows_r.mulOp (U256.ZERO.subOp N))

/-- Embeds the modular subtraction `fn sub(lhs, rhs)`:
`add(lhs, MODULUS - rhs)` with a wrapping `U256` subtraction. -/
def sub (lhs rhs : U256) : U256 := add lhs (N.subOp rhs)

/-- First phase loop of `modular_inverse` (`fp_u256.rs` lines 916-936),
fuel-indexed.  Each iteration begins with `u & U256::one()`, which goes
through the `todo!()` `BitAnd` trait impl; `/= 2u64` is `div_rem`, which
can also panic; `r = add(r, r)` in the last branch is the modular
addition.  On exit returns `(u, v, r, s, k)`. -/
def minvLoop : Nat → U256 → U256 → U256 → U256 → Nat →
    Except RsPanic (U256 × U256 × U256 × U256 × Nat)
  | 0, _, _, _, _, _ => .error .fuel
  | fuel + 1, u, v, r, s, k =>
    if U256.ordGt v U256.ZERO then do
      let ub ← u256_bitand u U256.ONE
      if ub == U256.ZERO then do
        let u2 ← u256_div u (U256.fromU64 2)
        minvLoop fuel u2 v r (s.mulOp (U256.fromU64 2)) (k + 1)
      else do
        let vb ← u256_bitand v U256.ONE
        if vb == U256.ZERO then do
          let v2 ← u256_div v (U256.fromU64 2)
          minvLoop fuel u v2 (r.mulOp (U256.fromU64 2)) s (k + 1)
        else if U256.ordGt u v then do
          let u2 ← u256_div (u.subOp v) (U256.fromU64 2)
          minvLoop fuel u2 v (r.addOp s) (s.mulOp (U256.fromU64 2)) (k + 1)
        else do
          let v2 ← u256_div (v.subOp u) (U256.fromU64 2)
          minvLoop fuel u v2 (add r r) (s.addOp r) (k + 1)
    else .ok (u, v, r, s, k)

/-- Second phase of `modular_inverse` (`fp_u256.rs` lines 948-955): the
`for _ in 0..(k - 256)` halving corrections, each beginning with
`r & U256::one()` through the `todo!()` `BitAnd` impl. -/
def minvPhase2 : Nat → U256 → Except RsPanic U256
  | 0, r => .ok r
  | n + 1, r => do
    let rb ← u256_bitand r U256.ONE
    let r2 ←
      if rb == U256.ZERO then u256_div r (U256.fromU64 2)
      else do
        let h1 ← u256_div r (U256.fromU64 2)
        let h2 ← u256_div N (U256.fromU64 2)
        let band1 ← u256_bitand U256.ONE N
        let band2 ← u256_bitand band1 r
        pure ((h1.addOp h2).addOp band2)
    minvPhase2 n r2

/-- Embeds `modular_inverse(b)` (`fp_u256.rs` lines 905-958), the binary
extended GCD (Kaliski): run the first-phase loop, return `None` when the
final `u` is not one, reduce `r` below `N`, run `k - 256` second-phase
steps, and scale by `R_SQUARED`.  `Except.error` models a panic. -/
def modular_inverse (b : U256) : Except RsPanic (Option U256) := do
  let a := N
  let res ← minvLoop 1024 a b U256.ZERO U256.ONE 0
  let u := res.fst
  let r := res.snd.snd.fst
  let k := res.snd.snd.snd.snd
  if u == U256.ONE then do
    let r1 := if U256.ordGe r a then r.subOp a else r
    let r2 ← minvPhase2 (k - 256) r1
    pure (some (mul (a.subOp r2) R_SQUARED))
  else
    pure none

/-- Embeds `pub struct BaseFelt(pub U256)`: a secp256k1 field element
stored in Montgomery form. -/
structure BaseFelt where
  val : U256
deriving DecidableEq, Repr

/-- Embeds `BaseFelt::new(value)`: Montgomery-multiply by `R_SQUARED`. -/
def BaseFelt.new (value : U256) : BaseFelt := ⟨mul value R_SQUARED⟩

/-- Embeds `One for BaseFelt`: `BaseFelt(mul(U256::one(), R_SQUARED))`. -/
def BaseFelt.one : BaseFelt := ⟨mul U256.ONE R_SQUARED⟩

/-- Embeds `Zero for BaseFelt`: `BaseFelt(U256::zero())`. -/
def BaseFelt.zero : BaseFelt := ⟨U256.ZERO⟩

/-- Embeds `BaseFelt::as_integer`: `mul(U256::one(), self.0)` projects
the stored Montgomery value back to a plain integer. -/
def BaseFelt.as_integer (a : BaseFelt) : U256 := mul U256.ONE a.val

/-- Embeds `Felt::inverse for BaseFelt`:
`Some(BaseFelt(modular_inverse(self.0)?))`. -/
def BaseFelt.inverse (a : BaseFelt) : Except RsPanic (Option BaseFelt) :=
  (modular_inverse a.val).map (fun o => o.map BaseFelt.mk)

/-- Modelled from the spec: `Felt::square_in_place`, called by `pow`, is
declared in the `Felt` trait (`fields/mod.rs`, not under `src/`); per
spec section 4.2 exponentiation squares the running base power, i.e.
Montgomery-multiplies it with itself. -/
def BaseFelt.square (a : BaseFelt) : BaseFelt := ⟨mul a.val a.val⟩

/-- The square-and-multiply loop of `BaseFelt::pow` (`fp_u256.rs` lines
652-658), fuel-indexed.  Each iteration tests `power &
U256::one() == U256::one()` through the `todo!()` `BitAnd` impl. -/
def powLoop : Nat → BaseFelt → U256 → BaseFelt → Except RsPanic BaseFelt
  | 0, _, _, _ => .error .fuel
  | fuel + 1, res, power, accumulator =>
    if power.is_zero then .ok res
    else do
      let pb ← u256_bitand power U256.ONE
      let res2 := if pb == U256.ONE then BaseFelt.mk (mul res.val accumulator.val) else res
      powLoop fuel res2 (power.shrOp U256.ONE) accumulator.square

/-- Embeds `BaseFelt::pow` (`fp_u256.rs` lines 640-661): result starts
at one; a zero exponent short-circuits to one before the zero-base
short-circuit to zero; otherwise the square-and-multiply loop runs. -/
def BaseFelt.pow (a : BaseFelt) (power : U256) : Except RsPanic BaseFelt :=
  if power.is_zero then .ok BaseFelt.one
  else if a.val == U256.ZERO then .ok BaseFelt.zero
  else powLoop 1024 BaseFelt.one power a

end Fp

/-! Claim theorems for the field layer. -/

/-- Concrete roundtrip counterexample input: `N - R⁻¹ mod N`, a value
strictly below the modulus. -/
def roundtripInput : U256 :=
  ⟨72125688198926239211936575935107385502, 89462544796134692881794128429895377669⟩

/-- C1: the claim states every field operation returns a stored
representation in `[0, N)`.  The code violates this: with both inputs in
range, the modular addition `add(N - 2, 1)` returns `2^256 - 1`, far
outside `[0, N)` — the correct result would have been `N - 1`, but the
disjunctive inherent `eq` reports the sum `N - 1` equal to `N` (their
high limbs agree) and an unwarranted subtraction of `N` wraps around. -/
theorem mont_add_escapes_range :
    (Fp.N.subOp ⟨0, 2⟩).toNat < Fp.N.toNat ∧
    U256.ONE.toNat < Fp.N.toNat ∧
    ¬ (Fp.add (Fp.N.subOp ⟨0, 2⟩) U256.ONE).toNat < Fp.N.toNat := by
  refine ⟨by decide, by decide, by decide⟩

/-- C2: the claim states `as_integer(new(v)) = v` for every `v < N`.
The code violates it at `v = N - R⁻¹ mod N`: `new(v)` should store
`N - 1` but the disjunctive `eq` fires (high limbs agree with `N`) and
the result wraps to `2^256 - 1`; converting back yields `v + 1`. -/
theorem mont_roundtrip_fails :
    roundtripInput.toNat < Fp.N.toNat ∧
    Fp.BaseFelt.as_integer (Fp.BaseFelt.new roundtripInput) ≠ roundtripInput := by
  refine ⟨by decide, by decide⟩

/-- C3: the claim states the equality test is the conjunction of the two
limb comparisons.  The inherent `U256::eq` is a disjunction: it reports
`1 = 2` (high limbs both zero, low limbs distinct) as equal. -/
theorem u256_eq_is_disjunction :
    U256.eqOp ⟨0, 1⟩ ⟨0, 2⟩ = true ∧ (⟨0, 1⟩ : U256) ≠ ⟨0, 2⟩ := by
  refine ⟨rfl, by decide⟩

/-- C4: the claim states `div_rem(a, b)` satisfies `b*q + r = a` with
`0 ≤ r < b` for every nonzero divisor, including divisors with a nonzero
high limb.  The code violates both parts: dividing by a divisor with a
nonzero high limb (when no earlier branch fires) hits the `todo!()`
branch and panics, and `div_rem(1, 2)` returns `(0, 2)` — the remainder
is the divisor, so `b*q + r = 2 ≠ 1` and `r < b` fails. -/
theorem div_rem_violations :
    U256.div_rem ⟨3, 5⟩ ⟨1, 7⟩ = .error .todo ∧
    U256.div_rem ⟨0, 1⟩ ⟨0, 2⟩ = .ok (U256.ZERO, ⟨0, 2⟩) ∧
    ¬ ((⟨0, 2⟩ : U256).toNat * U256.ZERO.toNat + (⟨0, 2⟩ : U256).toNat
        = (⟨0, 1⟩ : U256).toNat) := by
  refine ⟨rfl, rfl, by decide⟩

/-- C5: the claim states every nonzero field element has an inverse with
`a * inverse(a) = 1`.  The code panics instead: the very first loop
iteration of `modular_inverse` evaluates `u & U256::one()` through the
`todo!()` `BitAnd` impl, so `inverse` of the (nonzero) element with
stored value 1 returns a panic, not an element. -/
theorem inverse_nonzero_panics :
    Fp.BaseFelt.inverse ⟨U256.ONE⟩ = .error .todo ∧
    (⟨U256.ONE⟩ : Fp.BaseFelt) ≠ Fp.BaseFelt.zero := by
  refine ⟨rfl, by decide⟩

/-- C6: the claim states inversion of zero or of the modulus returns
`None` without panicking.  For zero the code indeed returns `None` (the
loop is never entered and `u = N ≠ 1`), but for the modulus itself the
loop is entered and the `todo!()` `BitAnd` impl panics. -/
theorem inverse_modulus_panics :
    Fp.modular_inverse U256.ZERO = .ok none ∧
    Fp.modular_inverse Fp.N = .error .todo := by
  refine ⟨rfl, rfl⟩

/-- C10: raising any field element — including zero — to the zero
exponent returns the field's one element, because `pow` tests the
zero-exponent short-circuit before the zero-base short-circuit. -/
theorem pow_zero_exponent (a : Fp.BaseFelt) :
    Fp.BaseFelt.pow a U256.ZERO = .ok Fp.BaseFelt.one := rfl

namespace ConstraintAlgebra

/-- Embeds `enum Element { Curr(usize), Next(usize) }`
(`constraint.rs` lines 13-16). -/
inductive Element where
  | Curr : Nat → Element
  | Next : Nat → Element
deriving DecidableEq, Repr

/-- Derived `Ord` on `Element`: variant order first (`Curr < Next`),
then the column index. -/
def Element.cmp : Element → Element → Ordering
  | .Curr a, .Curr b => compare a b
  | .Curr _, .Next _ => .lt
  | .Next _, .Curr _ => .gt
  | .Next a, .Next b => compare a b

/-- Derived tuple `Ord` on `(Element, usize)` pairs. -/
def pairCmp (p q : Element × Nat) : Ordering :=
  match Element.cmp p.fst q.fst with
  | .eq => compare p.snd q.snd
  | o => o

/-- Boolean `le` for the derived pair order, used by the sort. -/
def pairLe (p q : Element × Nat) : Bool := !(pairCmp p q == .gt)

/-- Stable insertion into a sorted list: the new element goes after all
existing elements that are `le` it, matching a stable sort. -/
def insertLe {α : Type} (le : α → α → Bool) (x : α) : List α → List α
  | [] => [x]
  | y :: ys => if le y x then y :: insertLe le x ys else x :: y :: ys

/-- Stable insertion sort, equivalent to Rust's stable `sort`/`sort_by`
for the orders used here. -/
def sortByLe {α : Type} (le : α → α → Bool) (l : List α) : List α :=
  l.foldl (fun acc x => insertLe le x acc) []

/-- Embeds `Variables::combine` (`constraint.rs` lines 70-82).  The
source pushes an entry only when the accumulator is empty; when the last
accumulated entry has the same element the exponents are summed, and
otherwise the entry is silently dropped (the `if let` has no `else`
push). -/
def combineVars (acc : List (Element × Nat)) :
    List (Element × Nat) → List (Element × Nat)
  | [] => acc
  | (e, p) :: rest =>
    match acc.getLast? with
    | some (pe, pp) =>
      if pe == e then combineVars (acc.dropLast ++ [(pe, pp + p)]) rest
      else combineVars acc rest
    | none => combineVars (acc ++ [(e, p)]) rest

/-- Embeds `Variables::new`: drop zero exponents, sort by the derived
pair order, then `combine`. -/
def Variables.new (vs : List (Element × Nat)) : List (Element × Nat) :=
  combineVars [] (sortByLe pairLe (vs.filter (fun p => p.snd != 0)))

/-- Embeds `Variables::degree`: the sum of all exponents. -/
def Variables.degree (v : List (Element × Nat)) : Nat :=
  v.foldl (fun sum element => sum + element.snd) 0

/-- The scan of `PartialOrd for Variables` (`constraint.rs` lines
95-104) over the zipped entries: on the first position whose element or
exponent differs the order is decided — note the source compares
`other`'s element against `curr`'s (reversed). -/
def varsCmpScan : List (Element × Nat) → List (Element × Nat) → Ordering
  | [], _ => .eq
  | _, [] => .eq
  | c :: cs, o :: os =>
    if o.fst = c.fst then
      if c.snd ≠ o.snd then compare c.snd o.snd else varsCmpScan cs os
    else Element.cmp o.fst c.fst

/-- Embeds `Ord for Variables`: total degree first, then the entry
scan. -/
def Variables.cmp (a b : List (Element × Nat)) : Ordering :=
  if Variables.degree a ≠ Variables.degree b then
    compare (Variables.degree a) (Variables.degree b)
  else varsCmpScan a b

/-- Embeds `struct Term<F>(F, Variables)`. -/
structure Term (F : Type) where
  coeff : F
  vars : List (Element × Nat)
deriving DecidableEq, Repr

/-- Embeds `Mul for &Term` (`constraint.rs` lines 130-138): concatenate
the variable lists, renormalize via `Variables::new`, multiply the
coefficients. -/
def Term.mul {F : Type} [Mul F] (a b : Term F) : Term F :=
  ⟨a.coeff * b.coeff, Variables.new (a.vars ++ b.vars)⟩

/-- Embeds `struct Constraint<F>(Vec<Term<F>>)`. -/
structure Constraint (F : Type) where
  terms : List (Term F)
deriving DecidableEq, Repr

/-- Boolean `le` on terms by `Variables` order, for the stable
`sort_by` in `Constraint::new`. -/
def termLe {F : Type} (a b : Term F) : Bool := !(Variables.cmp a.vars b.vars == .gt)

/-- Embeds `Constraint::combine_terms` (`constraint.rs` lines 160-172),
with the same push-only-when-empty shape as `Variables::combine`:
adjacent terms with equal variables are summed into the last
accumulated term, other terms are silently dropped. -/
def combineTerms {F : Type} [Add F] (acc : List (Term F)) :
    List (Term F) → List (Term F)
  | [] => acc
  | t :: rest =>
    match acc.getLast? with
    | some last =>
      if last.vars = t.vars then
        combineTerms (acc.dropLast ++ [⟨last.coeff + t.coeff, last.vars⟩]) rest
      else combineTerms acc rest
    | none => combineTerms (acc ++ [t]) rest

/-- Embeds `Constraint::remove_zeros`: retain terms with a nonzero
coefficient. -/
def removeZeros {F : Type} [Zero F] [DecidableEq F] (l : List (Term F)) : List (Term F) :=
  l.filter (fun t => ¬ t.coeff = 0)

/-- Embeds `Constraint::new`: stable sort by `Variables` order, combine,
drop zero coefficients. -/
def Constraint.new {F : Type} [Add F] [Zero F] [DecidableEq F]
    (terms : List (Term F)) : Constraint F :=
  ⟨removeZeros (combineTerms [] (sortByLe termLe terms))⟩

/-- Embeds `Constraint::degree`: maximum term degree, `0` for the empty
polynomial. -/
def Constraint.degree {F : Type} (c : Constraint F) : Nat :=
  ((c.terms.map (fun t => Variables.degree t.vars)).max?).getD 0

/-- Embeds `Zero::is_zero for Constraint`: no terms, or all coefficients
zero. -/
def Constraint.isZero {F : Type} [Zero F] [DecidableEq F] (c : Constraint F) : Bool :=
  c.terms.isEmpty || c.terms.all (fun t => t.coeff == 0)

/-- Embeds `Mul for &Constraint` (`constraint.rs` lines 193-210): if
either operand is zero return the zero polynomial, otherwise push the
pairwise term products in nested-loop order, with no renormalization of
the resulting term list. -/
def Constraint.mulC {F : Type} [Mul F] [Zero F] [DecidableEq F]
    (a b : Constraint F) : Constraint F :=
  if a.isZero || b.isZero then ⟨[]⟩
  else ⟨a.terms.flatMap (fun lt => b.terms.map (fun rt => Term.mul lt rt))⟩

/-- Embeds `From<Element> for Constraint` (`constraint.rs` lines
18-25): the degree-one polynomial with coefficient one over the given
column reference. -/
def Constraint.fromElement {F : Type} [One F] [Add F] [Zero F] [DecidableEq F]
    (element : Element) : Constraint F :=
  Constraint.new [⟨(1 : F), Variables.new [(element, 1)]⟩]

end ConstraintAlgebra

/-- The symbolic column-0 current-row polynomial over the field `ZMod 7`. -/
def colZeroPoly : ConstraintAlgebra.Constraint (ZMod 7) :=
  ConstraintAlgebra.Constraint.fromElement (.Curr 0)

/-- The symbolic column-1 current-row polynomial over the field `ZMod 7`. -/
def colOnePoly : ConstraintAlgebra.Constraint (ZMod 7) :=
  ConstraintAlgebra.Constraint.fromElement (.Curr 1)

/-- C7: the claim states `degree(a*b) = degree(a) + degree(b)` for
nonzero constraint polynomials.  The code violates it already for the
two degree-one polynomials over distinct columns: `Variables::combine`
only ever pushes into an empty accumulator, so the second column
reference of the product term is silently dropped and the product has
degree 1 instead of 2. -/
theorem constraint_mul_degree_drops :
    colZeroPoly.isZero = false ∧ colOnePoly.isZero = false ∧
    colZeroPoly.degree = 1 ∧ colOnePoly.degree = 1 ∧
    (ConstraintAlgebra.Constraint.mulC colZeroPoly colOnePoly).degree = 1 := by
  refine ⟨rfl, rfl, by decide, by decide, by decide⟩

namespace Pipeline

/-- Embeds `pub struct ProofOptions { num_queries: u8, blowup_factor:
u8 }` (`prover.rs` lines 36-41), with `u8` modelled as `Nat`. -/
structure ProofOptions where
  num_queries : Nat
  blowup_factor : Nat
deriving DecidableEq, Repr

/-- Modelled from the spec: `TraceInfo` lives in the trace module (not
under `src/`); per spec section 3 it is the trace metadata recorded in
the proof. -/
structure TraceInfo where
  num_base_columns : Nat
  num_extension_columns : Nat
  trace_len : Nat
deriving DecidableEq, Repr

/-- Embeds `pub struct Proof` (`prover.rs` lines 53-58): options, trace
metadata, and the list of `u64` commitment digests. -/
structure Proof where
  options : ProofOptions
  trace_info : TraceInfo
  commitments : List Nat
deriving DecidableEq, Repr

/-- Transcript interactions of a proving session, in execution order.
`deriveChallenges`/`deriveCompositionCoeffs` record the list of Merkle
roots absorbed into the transcript at the moment of derivation — the
derived values are a function of exactly that list. -/
inductive ChannelEvent where
  | commitBaseTrace : Nat → ChannelEvent
  | deriveChallenges : List Nat → ChannelEvent
  | commitExtensionTrace : Nat → ChannelEvent
  | deriveCompositionCoeffs : List Nat → ChannelEvent
deriving DecidableEq, Repr

/-- Process-fatal outcomes of `generate_proof`: the blowup-factor
`assert!`, the debug `air.validate` assertion, and the
composition-degree `assert_eq!`. -/
inductive PipelineAbort where
  | blowupAssert
  | validateAssert
  | degreeAssert
deriving DecidableEq, Repr

/-- Modelled from the spec: the collaborators of `generate_proof`
(`Air`, `Trace`, `ProverChannel`, `Matrix`, `MerkleTree` live outside
`src/`).  Spec sections 4.4 and 6 reduce them, for the purposes of the
pipeline's control flow, to: the two blowup factors, the Merkle root of
each commitment, whether extension columns are declared, whether the
diagnostic constraint check passes, and the computed versus declared
composition degree. -/
structure PipelineEnv where
  options : ProofOptions
  trace_info : TraceInfo
  ce_blowup_factor : Nat
  lde_blowup_factor : Nat
  base_root : Nat
  has_extension : Bool
  extension_root : Nat
  composition_root : Nat
  constraints_satisfied : Bool
  computed_composition_degree : Nat
  declared_composition_degree : Nat
deriving DecidableEq, Repr

/-- Embeds the stage sequence of `Prover::generate_proof` (`prover.rs`
lines 130-195) over the spec-modelled collaborators: assert the blowup
factors; commit the base trace and absorb its root; derive challenges
from the transcript; if extension columns are declared, commit them and
absorb their root; run the debug validation; derive the composition
coefficients from the transcript; assert the composition degree; commit
the composition; return `Ok(Proof { options, trace_info, commitments:
Vec::new() })` — the source builds the final proof with an empty
commitment vector.  The returned event list records every transcript
interaction in execution order. -/
def generate_proof (env : PipelineEnv) :
    Except PipelineAbort (Proof × List ChannelEvent) :=
  if env.lde_blowup_factor < env.ce_blowup_factor then .error .blowupAssert
  else
    let absorbedBase : List Nat := [env.base_root]
    let logBase : List ChannelEvent :=
      [.commitBaseTrace env.base_root, .deriveChallenges absorbedBase]
    let absorbedExt : List Nat :=
      if env.has_extension then absorbedBase ++ [env.extension_root] else absorbedBase
    let logExt : List ChannelEvent :=
      if env.has_extension then logBase ++ [.commitExtensionTrace env.extension_root]
      else logBase
    if env.constraints_satisfied then
      let logCoeffs := logExt ++ [.deriveCompositionCoeffs absorbedExt]
      if env.computed_composition_degree == env.declared_composition_degree then
        .ok (⟨env.options, env.trace_info, []⟩, logCoeffs)
      else .error .degreeAssert
    else .error .validateAssert

end Pipeline

/-- A pipeline environment with no extension columns whose assertions
all pass. -/
def envNoExt : Pipeline.PipelineEnv :=
  ⟨⟨32, 4⟩, ⟨2, 0, 8⟩, 2, 4, 11, false, 0, 13, true, 7, 7⟩

/-- A pipeline environment with extension columns whose assertions all
pass. -/
def envExt : Pipeline.PipelineEnv :=
  ⟨⟨32, 4⟩, ⟨2, 1, 8⟩, 2, 4, 11, true, 12, 13, true, 7, 7⟩

/-- C8: the claim states a successfully generated proof carries exactly
two commitment roots without extension columns and three with them.
The code returns `commitments: Vec::new()` — the proof's commitment
list is empty in both cases, even though the roots were computed. -/
theorem proof_commitments_always_empty :
    Except.map (fun r : Pipeline.Proof × List Pipeline.ChannelEvent =>
      r.fst.commitments.length) (Pipeline.generate_proof envNoExt) = .ok 0 ∧
    Except.map (fun r : Pipeline.Proof × List Pipeline.ChannelEvent =>
      r.fst.commitments.length) (Pipeline.generate_proof envExt) = .ok 0 := by
  refine ⟨rfl, rfl⟩

/-- C9: in every successful proving session the transcript interactions
happen in exactly this order: the base-trace root is absorbed, then the
challenges are derived (from a transcript holding exactly the base
root), then — when extension columns are declared — the extension root
is absorbed, and only then are the constraint-composition coefficients
derived, from a transcript holding every previously absorbed root.  No
derivation precedes a commitment it depends on. -/
theorem fiat_shamir_stage_order (env : Pipeline.PipelineEnv)
    (h1 : ¬ env.lde_blowup_factor < env.ce_blowup_factor)
    (h2 : env.constraints_satisfied = true)
    (h3 : env.computed_composition_degree = env.declared_composition_degree) :
    Except.map Prod.snd (Pipeline.generate_proof env) = .ok
      ([Pipeline.ChannelEvent.commitBaseTrace env.base_root,
        Pipeline.ChannelEvent.deriveChallenges [env.base_root]] ++
       (if env.has_extension then
          [Pipeline.ChannelEvent.commitExtensionTrace env.extension_root,
           Pipeline.ChannelEvent.deriveCompositionCoeffs
             [env.base_root, env.extension_root]]
        else
          [Pipeline.ChannelEvent.deriveCompositionCoeffs [env.base_root]])) := by
  simp only [Pipeline.generate_proof, if_neg h1, h2, if_true, h3, beq_self_eq_true]
  cases h : env.has_extension <;> simp [Except.map]

/-- Closed instance of the stage-order theorem at a concrete
environment with extension columns. -/
theorem fiat_shamir_stage_order_witness :
    Except.map Prod.snd (Pipeline.generate_proof envExt) = .ok
      ([Pipeline.ChannelEvent.commitBaseTrace envExt.base_root,
        Pipeline.ChannelEvent.deriveChallenges [envExt.base_root]] ++
       (if envExt.has_extension then
          [Pipeline.ChannelEvent.commitExtensionTrace envExt.extension_root,
           Pipeline.ChannelEvent.deriveCompositionCoeffs
             [envExt.base_root, envExt.extension_root]]
        else
          [Pipeline.ChannelEvent.deriveCompositionCoeffs [envExt.base_root]])) :=
  fiat_shamir_stage_order envExt (by decide) (by decide) (by decide)
